import Mathlib

/-!
Shallow embedding of the pyIthoRFT protocol core (src/IthoRFT/remote.py, with
src/main.py as the earlier variant of the same loop).  The embedding covers
the frame tokenizer of `_loop_task`, the status-payload decoder
`_parse_status`, the pairing/dispatch step of `_loop_task`, the outgoing
encoders `pair` and `command`, and the address-integer arithmetic.

Python floats appear only as `int(...)/2`, `int(...)/100.0` and comparisons
against the decimal literals 0.0, 100.0, -273.15 and 327.66.  All quantities
involved are integers below 2^16 divided by 2 or 100; such values and the
literal bounds are separated by far more than the double-precision ulp at
these magnitudes, and IEEE division by 2 resp. 100 of such integers rounds to
the double nearest the exact rational, so every comparison the code performs
has the same truth value as the exact rational comparison.  The embedding
therefore uses `ℚ` for these values.
-/

/-- Decimal digit test, the regex character class `\d`. -/
def isDigitC (c : Char) : Bool := '0' ≤ c && c ≤ '9'

/-- Uppercase-hex digit test, the regex character class `[0-9A-F]`. -/
def isHexU (c : Char) : Bool := isDigitC c || ('A' ≤ c && c ≤ 'F')

/-- Value of one hex digit as accepted by Python `int(_, 16)` (either case). -/
def hexDigitVal (c : Char) : Option Nat :=
  if isDigitC c then some (c.toNat - 48)
  else if 'A' ≤ c && c ≤ 'F' then some (c.toNat - 55)
  else if 'a' ≤ c && c ≤ 'f' then some (c.toNat - 87)
  else none

/-- Accumulator loop of decimal `int(s)`. -/
def decValGo : List Char → Nat → Option Nat
  | [], acc => some acc
  | c :: cs, acc =>
    if isDigitC c then decValGo cs (acc * 10 + (c.toNat - 48)) else none

/-- Python `int(s)` on a decimal string: `none` models the `ValueError` raised
on the empty string or a non-digit character. -/
def decVal : List Char → Option Nat
  | [] => none
  | c :: cs => decValGo (c :: cs) 0

/-- Accumulator loop of `int(s, 16)`. -/
def hexValGo : List Char → Nat → Option Nat
  | [], acc => some acc
  | c :: cs, acc =>
    match hexDigitVal c with
    | some d => hexValGo cs (acc * 16 + d)
    | none => none

/-- Python `int(s, 16)` on a hex string: `none` models the `ValueError` raised
on the empty string or a non-hex character. -/
def hexVal : List Char → Option Nat
  | [] => none
  | c :: cs => hexValGo (c :: cs) 0

/-- The character for one decimal digit. -/
def decDigitChar (d : Nat) : Char :=
  match d with
  | 0 => '0' | 1 => '1' | 2 => '2' | 3 => '3' | 4 => '4'
  | 5 => '5' | 6 => '6' | 7 => '7' | 8 => '8' | _ => '9'

/-- Fuel-driven worker for `decDigits`; structural recursion on the fuel so
that closed terms reduce inside the kernel.  The fuel only needs to dominate
the recursion depth: `n ≤ fuel` always suffices. -/
def decDigitsF : Nat → Nat → List Char
  | 0, n => [decDigitChar n]
  | fuel + 1, n =>
    if n < 10 then [decDigitChar n]
    else decDigitsF fuel (n / 10) ++ [decDigitChar (n % 10)]

/-- Minimal decimal digit string of a natural number, most significant first,
as Python `str(n)` renders it. -/
def decDigits (n : Nat) : List Char := decDigitsF n n

/-- Python format `f-string` conversion of width `w` with `0` fill, e.g.
`f"{n:03}"` or `f"{n:06d}"`: minimal digits, left-padded with zeros to at
least `w` characters (numbers with more digits are not truncated). -/
def pyPad (w n : Nat) : List Char :=
  List.replicate (w - (decDigits n).length) '0' ++ decDigits n

/-- The character for one uppercase hex digit. -/
def hexDigitCharU (d : Nat) : Char :=
  match d with
  | 0 => '0' | 1 => '1' | 2 => '2' | 3 => '3' | 4 => '4'
  | 5 => '5' | 6 => '6' | 7 => '7' | 8 => '8' | 9 => '9'
  | 10 => 'A' | 11 => 'B' | 12 => 'C' | 13 => 'D' | 14 => 'E' | _ => 'F'

/-- Fuel-driven worker for `hexDigits`, structural like `decDigitsF`. -/
def hexDigitsF : Nat → Nat → List Char
  | 0, n => [hexDigitCharU n]
  | fuel + 1, n =>
    if n < 16 then [hexDigitCharU n]
    else hexDigitsF fuel (n / 16) ++ [hexDigitCharU (n % 16)]

/-- Minimal uppercase hex digit string, most significant first: the Python
format conversion `{n:X}` (note: no zero padding). -/
def hexDigits (n : Nat) : List Char := hexDigitsF n n

/-- Python `f"{n:X}"` as a string. -/
def hexUpper (n : Nat) : String := ⟨hexDigits n⟩

/-- Python string slice `s[i:j]` for `0 ≤ i ≤ j`. -/
def pySlice (cs : List Char) (i j : Nat) : List Char := (cs.drop i).take (j - i)

/-- The decoded status snapshot built by `_parse_status` (the `self.data`
dictionary, remote.py lines 422-452).  `none` in an `Option` field is the
Python `None` produced when a raw value fails its range check. -/
structure StatusData where
  air_quality : Option ℚ
  quality_base_th : Bool
  quality_base_co : Bool
  quality_base_voc : Bool
  quality_base_outdoor_improved : Bool
  co2_level : Option Nat
  outdoor_humidity : Option Nat
  indoor_humidity : Option Nat
  exhaust_temperature : Option ℚ
  supply_temperature : Option ℚ
  indoor_temperature : Option ℚ
  outdoor_temperature : Option ℚ
  capability_flags : String
  bypass_position : Option ℚ
  flags_fault_active : Bool
  flags_filter_dirty : Bool
  flags_defrost_active : Bool
  flags_active_speed_mode : String
  exhaust_fan_speed : Option ℚ
  inlet_fan_speed : Option ℚ
  remaining_time : Nat
  pos_theater : Option ℚ
  pre_heater : Option ℚ
  inlet_flow : Option ℚ
  exhaust_flow : Option ℚ
deriving DecidableEq, Repr

/-- Shared shape of the `raw / 2` percentage fields of `_parse_status`
(air quality, bypass position, fan speeds, heaters):
`x = int(..) / 2` kept only when `0.0 <= x <= 100.0`. -/
def percentHalf (raw : Nat) : Option ℚ :=
  let x : ℚ := (raw : ℚ) / 2
  if 0 ≤ x ∧ x ≤ 100 then some x else none

/-- Shared shape of the four temperature fields of `_parse_status`
(remote.py lines 280-323): reinterpret the 16-bit value as a signed int,
divide by 100.0, keep only when `-273.15 <= x <= 327.66`. -/
def tempField (raw : Nat) : Option ℚ :=
  let s : Int := (raw : Int) - (if raw &&& 0x8000 ≠ 0 then 0x10000 else 0)
  let x : ℚ := (s : ℚ) / 100
  if -273.15 ≤ x ∧ x ≤ 327.66 then some x else none

/-- The `capability_names` list literal of `_parse_status`. -/
def capabilityNames : List String :=
  ["Off", "Away", "Timer", "Boost", "Auto", "Speed 4", "Speed 5", "Speed 6",
   "Speed 7", "Speed 8", "Speed 9", "Speed 10", "Night", "Reserved",
   "Post Heater", "Pre Heater"]

/-- The `set_capabilities` comprehension plus the `", ".join(...)` of
`_parse_status`: names whose bit `15 - i` is set, comma-joined. -/
def capabilityStr (raw : Nat) : String :=
  String.intercalate ", "
    ((List.range 16).filterMap fun i =>
      if raw &&& (1 <<< (15 - i)) ≠ 0 then some (capabilityNames.getD i "")
      else none)

/-- The `active_speed_mode_mapping` dictionary of `_parse_status`
(remote.py lines 364-394), with the `.get(_, "Unknown")` default. -/
def speedModeName (m : Nat) : String :=
  match m with
  | 0 => "OFF"
  | 1 => "Speed 1"
  | 2 => "Speed 2"
  | 3 => "Speed 3"
  | 4 => "Speed 4"
  | 5 => "Speed 5"
  | 6 => "Speed 6"
  | 7 => "Speed 7"
  | 8 => "Speed 8"
  | 9 => "Speed 9"
  | 10 => "Speed 10"
  | 11 => "Speed 1 Temporary Override"
  | 12 => "Speed 2 Temporary Override"
  | 13 => "Speed 3 Temporary Override"
  | 14 => "Speed 4 Temporary Override"
  | 15 => "Speed 5 Temporary Override"
  | 16 => "Speed 6 Temporary Override"
  | 17 => "Speed 7 Temporary Override"
  | 18 => "Speed 8 Temporary Override"
  | 19 => "Speed 9 Temporary Override"
  | 20 => "Speed 10 Temporary Override"
  | 21 => "Away"
  | 22 => "Abs Minimum Speed"
  | 23 => "Abs Maximum Speed"
  | 24 => "Auto"
  | 25 => "Night"
  | _ => "Unknown"

/-- Model of `IthoRFTRemote._parse_status` (remote.py lines 248-452).  Each
`hexVal` bind is one `int(pos[i:j], 16)` call of the source, in source order;
`none` for the whole result models the uncaught `ValueError` such a call
raises when its slice is empty (the function itself performs no length
check).  All later computations on the parsed integers are total. -/
def parse_status (pos : List Char) : Option StatusData :=
  match hexVal (pySlice pos 2 4) with
  | none => none
  | some aqRaw =>
  match hexVal (pySlice pos 4 6) with
  | none => none
  | some qbRaw =>
  match hexVal (pySlice pos 6 10) with
  | none => none
  | some co2Raw =>
  match hexVal (pySlice pos 10 12) with
  | none => none
  | some ohRaw =>
  match hexVal (pySlice pos 12 14) with
  | none => none
  | some ihRaw =>
  match hexVal (pySlice pos 14 18) with
  | none => none
  | some etRaw =>
  match hexVal (pySlice pos 18 22) with
  | none => none
  | some stRaw =>
  match hexVal (pySlice pos 22 26) with
  | none => none
  | some itRaw =>
  match hexVal (pySlice pos 26 30) with
  | none => none
  | some otRaw =>
  match hexVal (pySlice pos 30 34) with
  | none => none
  | some capRaw =>
  match hexVal (pySlice pos 34 36) with
  | none => none
  | some bpRaw =>
  match hexVal (pySlice pos 36 38) with
  | none => none
  | some flagsRaw =>
  match hexVal (pySlice pos 38 40) with
  | none => none
  | some efsRaw =>
  match hexVal (pySlice pos 40 42) with
  | none => none
  | some ifsRaw =>
  match hexVal (pySlice pos 42 46) with
  | none => none
  | some remRaw =>
  match hexVal (pySlice pos 46 48) with
  | none => none
  | some phRaw =>
  match hexVal (pySlice pos 48 50) with
  | none => none
  | some prRaw =>
  match hexVal (pySlice pos 50 54) with
  | none => none
  | some infRaw =>
  match hexVal (pySlice pos 54 58) with
  | none => none
  | some exfRaw =>
  some
    { air_quality := percentHalf aqRaw
      quality_base_th := (qbRaw &&& 0b10000000) != 0
      quality_base_co := (qbRaw &&& 0b01000000) != 0
      quality_base_voc := (qbRaw &&& 0b00100000) != 0
      quality_base_outdoor_improved := (qbRaw &&& 0b00010000) == 0
      co2_level := if 0 ≤ co2Raw ∧ co2Raw ≤ 0x3FFF then some co2Raw else none
      outdoor_humidity := if 0 ≤ ohRaw ∧ ohRaw ≤ 100 then some ohRaw else none
      indoor_humidity := if 0 ≤ ihRaw ∧ ihRaw ≤ 100 then some ihRaw else none
      exhaust_temperature := tempField etRaw
      supply_temperature := tempField stRaw
      indoor_temperature := tempField itRaw
      outdoor_temperature := tempField otRaw
      capability_flags := capabilityStr capRaw
      bypass_position := percentHalf bpRaw
      flags_fault_active := (flagsRaw &&& 0b10000000) != 0
      flags_filter_dirty := (flagsRaw &&& 0b01000000) != 0
      flags_defrost_active := (flagsRaw &&& 0b00100000) != 0
      flags_active_speed_mode := speedModeName (flagsRaw &&& 0b00011111)
      exhaust_fan_speed := percentHalf efsRaw
      inlet_fan_speed := percentHalf ifsRaw
      remaining_time := remRaw
      pos_theater := percentHalf phRaw
      pre_heater := percentHalf prRaw
      inlet_flow :=
        if 0 ≤ infRaw ∧ infRaw ≤ 0x7FFF then some ((infRaw : ℚ) / 100) else none
      exhaust_flow :=
        if 0 ≤ exfRaw ∧ exfRaw ≤ 0x7FFF then some ((exfRaw : ℚ) / 100) else none }

/-- One decoded line: the named regex groups of `_loop_task`. -/
structure Frame where
  rssi : String
  verb : String
  seqf : String
  addr1 : String
  addr2 : String
  addr3 : String
  code : String
  paylen : String
  payload : String
deriving DecidableEq, Repr

/-- Consume exactly `n` characters passing the shape test `ok`: the building
block for the fixed-width fields of the frame regex. -/
def readTok (n : Nat) (ok : List Char → Bool) (cs : List Char) :
    Option (List Char × List Char) :=
  let t := cs.take n
  if t.length = n ∧ ok t then some (t, cs.drop n) else none

/-- Shape of a literal single space in the pattern. -/
def spaceOK (t : List Char) : Bool := t == [' ']

/-- Shape of the `VERB` group `( I|RQ|RP| W)`. -/
def verbOK (t : List Char) : Bool :=
  t == " I".data || t == "RQ".data || t == "RP".data || t == " W".data

/-- Shape of the `SEQNR` group `(---|\d{3})`. -/
def seqOK (t : List Char) : Bool := t == "---".data || t.all isDigitC

/-- Shape of an address group `(--:------|\d{2}:\d{6})`. -/
def addrOK (t : List Char) : Bool :=
  t == "--:------".data ||
  (match t with
   | [a, b, c, d, e, f, g, h, i] =>
     isDigitC a && isDigitC b && c == ':' && isDigitC d && isDigitC e &&
     isDigitC f && isDigitC g && isDigitC h && isDigitC i
   | _ => false)

/-- Model of `re.match(regex_pattern, data)` in `_loop_task` (remote.py lines
164-191, identical pattern in main.py lines 371-375).  `re.match` anchors at
the start only, so the grammar is matched as a prefix of the line.  Every
alternation in the pattern has fixed width and alternatives distinguished by
their first character, and the final `[0-9A-F]*` is greedy with nothing
after it, so the regex engine's behavior is exactly this deterministic
left-to-right tokenizer.  Returns the groups and the unconsumed tail. -/
def frameMatch (cs : List Char) : Option (Frame × List Char) :=
  match readTok 3 (List.all · isDigitC) cs with
  | none => none
  | some (rssi, r1) =>
  match readTok 1 spaceOK r1 with
  | none => none
  | some (_, r2) =>
  match readTok 2 verbOK r2 with
  | none => none
  | some (verb, r3) =>
  match readTok 1 spaceOK r3 with
  | none => none
  | some (_, r4) =>
  match readTok 3 seqOK r4 with
  | none => none
  | some (seqf, r5) =>
  match readTok 1 spaceOK r5 with
  | none => none
  | some (_, r6) =>
  match readTok 9 addrOK r6 with
  | none => none
  | some (a1, r7) =>
  match readTok 1 spaceOK r7 with
  | none => none
  | some (_, r8) =>
  match readTok 9 addrOK r8 with
  | none => none
  | some (a2, r9) =>
  match readTok 1 spaceOK r9 with
  | none => none
  | some (_, r10) =>
  match readTok 9 addrOK r10 with
  | none => none
  | some (a3, r11) =>
  match readTok 1 spaceOK r11 with
  | none => none
  | some (_, r12) =>
  match readTok 4 (List.all · isHexU) r12 with
  | none => none
  | some (code, r13) =>
  match readTok 1 spaceOK r13 with
  | none => none
  | some (_, r14) =>
  match readTok 3 (List.all · isDigitC) r14 with
  | none => none
  | some (plen, r15) =>
  match readTok 1 spaceOK r15 with
  | none => none
  | some (_, r16) =>
  some ({ rssi := ⟨rssi⟩, verb := ⟨verb⟩, seqf := ⟨seqf⟩, addr1 := ⟨a1⟩,
          addr2 := ⟨a2⟩, addr3 := ⟨a3⟩, code := ⟨code⟩, paylen := ⟨plen⟩,
          payload := ⟨r16.takeWhile isHexU⟩ }, r16.dropWhile isHexU)

/-- The mutable state of an `IthoRFTRemote` object touched by the protocol
core (remote.py `__init__`). -/
structure RState where
  remote_address : String
  unit_address : Option String
  is_pairing : Bool
  pairing_timeout : ℚ
  sequence_number : Nat
  data : Option StatusData
deriving DecidableEq, Repr

/-- Callback invocations observable by collaborators. -/
inductive REvent
  | pairCallback (remote unit : String)
  | dataCallback (d : StatusData)
deriving DecidableEq, Repr

/-- Model of one iteration of the inner receive loop of
`IthoRFTRemote._loop_task` (remote.py lines 177-241) on one received line:
regex match, payload-length check (`continue` on mismatch), pairing
handling, status handling.  `now` is the value `time.time()` returns in the
timeout test.  The result is `none` when `_parse_status` raises (the
exception escapes the task); otherwise the new state and the callback
invocations in order. -/
def processLine (st : RState) (now : ℚ) (line : String) :
    Option (RState × List REvent) :=
  match frameMatch line.data with
  | none => some (st, [])
  | some (f, _) =>
    if f.payload.length / 2 ≠ (decVal f.paylen.data).getD 0 then some (st, [])
    else
      let afterPair : RState × List REvent :=
        if st.is_pairing then
          let hit : RState × List REvent :=
            if f.verb == "RQ" && f.code == "10E0" &&
                f.addr2 == st.remote_address && f.payload == "63" then
              ({ st with unit_address := some f.addr1, is_pairing := false },
               [REvent.pairCallback st.remote_address f.addr1])
            else (st, [])
          if now > st.pairing_timeout then
            ({ hit.1 with unit_address := none, is_pairing := false }, hit.2)
          else hit
        else (st, [])
      match afterPair.1.unit_address with
      | some ua =>
        if f.addr1 == ua && f.code == "31DA" then
          match parse_status f.payload.data with
          | none => none
          | some d =>
            some ({ afterPair.1 with data := some d },
                  afterPair.2 ++ [REvent.dataCallback d])
        else some afterPair
      | none => some afterPair

/-- The lines of one polling cycle: the inner `while True` of `_loop_task`
drains every available line, then the cycle ends; no other code runs in a
cycle, so the timeout test is reachable only inside `processLine`. -/
def processLines (st : RState) (now : ℚ) :
    List String → Option (RState × List REvent)
  | [] => some (st, [])
  | l :: ls => do
    let (st1, evs1) ← processLine st now l
    let (st2, evs2) ← processLines st1 now ls
    pure (st2, evs1 ++ evs2)

/-- The `command_map` dictionary of `IthoRFTRemote.command` (remote.py lines
568-576). -/
def command_map (c : String) : Option String :=
  if c = "night" then some "22F8 003 630203"
  else if c = "auto" then some "22F1 003 630304"
  else if c = "low" then some "22F1 003 630204"
  else if c = "high" then some "22F1 003 630404"
  else if c = "timer10" then some "22F3 003 63000A"
  else if c = "timer20" then some "22F3 003 630014"
  else if c = "timer30" then some "22F3 003 63001E"
  else none

/-- Model of `IthoRFTRemote.command` (remote.py lines 555-590): on a known
name, write the frame and bump the sequence number; on an unknown name, log
a warning only — nothing is sent (`none`) and the state is unchanged. -/
def command (st : RState) (cmd : String) : RState × Option String :=
  match command_map cmd with
  | some body =>
    ({ st with sequence_number := st.sequence_number + 1 },
     some (" I " ++ ⟨pyPad 3 st.sequence_number⟩ ++ " --:------ --:------ " ++
           st.remote_address ++ " " ++ body ++ "\r\n"))
  | none => (st, none)

/-- Python `str.split(":")` on a character list. -/
def splitColon : List Char → List (List Char)
  | [] => [[]]
  | c :: cs =>
    if c = ':' then [] :: splitColon cs
    else
      match splitColon cs with
      | [] => [[c]]
      | p :: ps => (c :: p) :: ps

/-- The address-text-to-integer conversion of `IthoRFTRemote.pair` (remote.py
lines 529-531): `convert = addr.split(":")` then
`(int(convert[0]) << 18) + int(convert[1])`.  `none` models the exception
raised when there is no colon or a part is not a decimal numeral. -/
def textToAddr (s : String) : Option Nat :=
  match splitColon s.data with
  | c :: i :: _ => do
    let cv ← decVal c
    let iv ← decVal i
    pure ((cv <<< 18) + iv)
  | _ => none

/-- The integer-to-text direction of the device-address encoding, assembled
from the decomposition documented in remote.py lines 18-21
(`class = (a & 0xFC0000) >> 18`, `id = a & 0x03FFFF`) and the textual shape
used by `__init__` line 74 (`f"29:{...:06d}"`): two decimal digits of class,
a colon, six zero-padded decimal digits of id. -/
def addrToText (a : Nat) : String :=
  ⟨pyPad 2 ((a &&& 0xFC0000) >>> 18) ++ ':' :: pyPad 6 (a &&& 0x3FFFF)⟩

/-- The pairing broadcast payload of `IthoRFTRemote.pair` (remote.py line
545): `f"6322F8{a:X}0110E0{a:X}"` — note the unpadded `:X` conversion. -/
def pairPayload (a : Nat) : String :=
  "6322F8" ++ hexUpper a ++ "0110E0" ++ hexUpper a

/-- `TIMEOUT_PAIRING` is imported from `IthoRFT/const.py`, which is not among
the sources; main.py line 452 uses 60 seconds for the same deadline.  No
claim depends on its value. -/
def TIMEOUT_PAIRING : ℚ := 60

/-- Model of `IthoRFTRemote.pair` (remote.py lines 526-553): convert the
remote address to its integer, write the broadcast frame, bump the sequence
number, arm the pairing deadline.  `now` is the value `time.time()` returns
during the call; the returned string is what is written to the transport. -/
def pair (st : RState) (now : ℚ) : Option (RState × String) :=
  (textToAddr st.remote_address).map fun a =>
    ({ st with
        sequence_number := st.sequence_number + 1,
        pairing_timeout := now + TIMEOUT_PAIRING,
        is_pairing := true },
     " I " ++ ⟨pyPad 3 st.sequence_number⟩ ++ " --:------ --:------ " ++
       st.remote_address ++ " 1FC9 012 " ++ pairPayload a ++ "\r\n")

/-- The claim's pairing-payload address rendering: uppercase hex zero-padded
to exactly six digits. -/
def hexPad6 (a : Nat) : String :=
  ⟨List.replicate (6 - (hexDigits a).length) '0' ++ hexDigits a⟩

/-- The pairing payload as the specification states it:
`6322F8<addr:6hex>0110E0<addr:6hex>`. -/
def specPairPayload (a : Nat) : String :=
  "6322F8" ++ hexPad6 a ++ "0110E0" ++ hexPad6 a

/-- The temperature decode as the claim states it: two's-complement
reinterpretation of the 16-bit raw value, divided by 100, kept only within
-273.15..327.66. -/
def specTemp (raw : Nat) : Option ℚ :=
  let s : Int := if 0x8000 ≤ raw then (raw : Int) - 0x10000 else (raw : Int)
  let x : ℚ := (s : ℚ) / 100
  if -273.15 ≤ x ∧ x ≤ 327.66 then some x else none

/-! Concrete states and lines used to instantiate the theorems. -/

/-- A remote object in its usual configured state: remote address
`29:012345`, paired to unit `18:012345`, not pairing, counter 0. -/
def initState : RState :=
  { remote_address := "29:012345", unit_address := some "18:012345",
    is_pairing := false, pairing_timeout := 0, sequence_number := 0,
    data := none }

/-- A remote object that is in the middle of pairing with deadline 10. -/
def pairingState : RState :=
  { remote_address := "29:012345", unit_address := none,
    is_pairing := true, pairing_timeout := 10, sequence_number := 0,
    data := none }

/-- The status frame line whose payload has odd character length 59 while
declaring `PAYLEN` 029. -/
def oddLine : String :=
  "069  I --- 18:012345 --:------ 18:012345 31DA 029 00F0007FFFEFEF0884079E085A07714000125850FF0000EFEF41E641E60"

/-- The specification's own mismatch example: `PAYLEN` 010 with an
8-character payload. -/
def mismatchLine : String :=
  "069  I --- 18:012345 --:------ 18:012345 31DA 010 0011AABB"

/-- A pairing-response frame line: verb RQ, code 10E0, addr2 equal to the
remote address of `pairingState`, payload `63`. -/
def successLine : String :=
  "070 RQ --- 18:126620 29:012345 --:------ 10E0 001 63"

/-- The pairing broadcast as echoed back by the gateway: a grammar-matching,
length-valid frame that does not satisfy the pairing-success conditions. -/
def pairEchoLine : String :=
  "072  I 022 --:------ --:------ 29:012345 1FC9 012 6322F87430390110E0743039"

/-- The 58-character status payload from the log excerpt in remote.py. -/
def stdPayload : String :=
  "00F0007FFFEFEF0884079E085A07714000125850FF0000EFEF41E641E6"

/-- A 60-character hex payload: `stdPayload` with two extra characters. -/
def longPayload : String :=
  "00F0007FFFEFEF0884079E085A07714000125850FF0000EFEF41E641E600"

/-- An all-fields-absent status snapshot, used only as a `getD` default. -/
def emptyStatus : StatusData :=
  { air_quality := none, quality_base_th := false, quality_base_co := false,
    quality_base_voc := false, quality_base_outdoor_improved := false,
    co2_level := none, outdoor_humidity := none, indoor_humidity := none,
    exhaust_temperature := none, supply_temperature := none,
    indoor_temperature := none, outdoor_temperature := none,
    capability_flags := "", bypass_position := none,
    flags_fault_active := false, flags_filter_dirty := false,
    flags_defrost_active := false, flags_active_speed_mode := "",
    exhaust_fan_speed := none, inlet_fan_speed := none, remaining_time := 0,
    pos_theater := none, pre_heater := none, inlet_flow := none,
    exhaust_flow := none }

/-- The sequence-number step of one successful symbolic command. -/
lemma command_auto_seq (s : RState) :
    (command s "auto").1 = { s with sequence_number := s.sequence_number + 1 } := rfl

/-- Iterating successful command encodes adds one per encode, with no modulo
anywhere. -/
lemma commandAuto_iterate (n : Nat) :
    ∀ s : RState,
      ((fun st => (command st "auto").1)^[n] s).sequence_number =
        s.sequence_number + n := by
  induction n with
  | zero => intro s; simp
  | succ k ih =>
    intro s
    rw [Function.iterate_succ_apply]
    rw [ih]
    simp only [command_auto_seq]
    omega

/-- C1: the outgoing sequence counter is claimed to stay in 0..999 and wrap
modulo 1000.  In the code both `pair` and `command` execute a bare
`self.sequence_number += 1` with no modulo, so 1000 successful encodes
starting from 0 leave the counter at exactly 1000 (which the `{:03}` format
then emits as a four-digit SEQ field, breaking the 3-digit frame grammar the
code itself parses); it never returns to 0. -/
theorem seq_counter_never_wraps
    (st : RState) (now : ℚ) (r : RState × String)
    (hp : pair st now = some r) :
    r.1.sequence_number = st.sequence_number + 1 ∧
    (∀ s : RState, ((command s "auto").1).sequence_number = s.sequence_number + 1) ∧
    ((fun s : RState => (command s "auto").1)^[1000] initState).sequence_number = 1000 ∧
    ((fun s : RState => (command s "auto").1)^[1000] initState).sequence_number ≠ 0 := by
  refine ⟨?_, ?_, ?_, ?_⟩
  · cases h : textToAddr st.remote_address with
    | none =>
      simp only [pair, h, Option.map_none'] at hp
      exact Option.noConfusion hp
    | some a =>
      simp only [pair, h, Option.map_some', Option.some.injEq] at hp
      rw [← hp]
  · intro s
    rw [command_auto_seq]
  · rw [commandAuto_iterate]
    decide
  · rw [commandAuto_iterate]
    decide

/-- Witness for C1 at the concrete paired remote and `now = 5`. -/
theorem seq_counter_never_wraps_witness :
    ({ initState with
        sequence_number := initState.sequence_number + 1
        pairing_timeout := 5 + TIMEOUT_PAIRING
        is_pairing := true } : RState).sequence_number =
      initState.sequence_number + 1 ∧
    (∀ s : RState, ((command s "auto").1).sequence_number = s.sequence_number + 1) ∧
    ((fun s : RState => (command s "auto").1)^[1000] initState).sequence_number = 1000 ∧
    ((fun s : RState => (command s "auto").1)^[1000] initState).sequence_number ≠ 0 :=
  seq_counter_never_wraps initState 5
    ({ initState with
        sequence_number := initState.sequence_number + 1
        pairing_timeout := 5 + TIMEOUT_PAIRING
        is_pairing := true },
     " I 000 --:------ --:------ 29:012345 1FC9 012 6322F87430390110E0743039\r\n")
    (by rfl)

/-- C3: the pairing broadcast payload is claimed to carry the address as
uppercase hex zero-padded to exactly six digits.  The code formats it with
the unpadded `{:X}` conversion, so for the address `01:000005`
(integer 0x40005, five hex digits) the emitted payload has 22 characters,
not the 24 the claim requires and not the 24 the frame's own hardcoded
`PAYLEN` field `012` declares. -/
theorem pair_payload_unpadded :
    pairPayload 0x40005 = "6322F8400050110E040005" ∧
    specPairPayload 0x40005 = "6322F80400050110E0040005" ∧
    pairPayload 0x40005 ≠ specPairPayload 0x40005 ∧
    (pairPayload 0x40005).length = 22 ∧ (22 : Nat) ≠ 2 * 12 ∧
    textToAddr "01:000005" = some 0x40005 ∧
    (pair { initState with remote_address := "01:000005" } 0).map
        (fun p => p.2) =
      some " I 000 --:------ --:------ 01:000005 1FC9 012 6322F8400050110E040005\r\n" := by
  refine ⟨rfl, rfl, by decide, rfl, by decide, rfl, rfl⟩

/-- Counterexample for C5: the claim says a frame is discarded (no
StatusReport, no state change) whenever the payload character length differs
from `2 * PAYLEN`, in particular odd length `2k+1` with declared `k`.  The
code checks `int(len(PAYLOAD)/2) != int(PAYLEN)`, a floor division, so this
59-character payload with `PAYLEN` 029 passes the check and is fully
processed: a StatusReport is stored and the data callback fires. -/
theorem odd_payload_processed :
    (frameMatch oddLine.data).map
        (fun p => (p.1.payload.length, (decVal p.1.paylen.data).getD 0)) =
      some (59, 29) ∧
    (59 : Nat) ≠ 2 * 29 ∧
    (processLine initState 0 oddLine).map
        (fun res => (res.1.data.isSome, res.2.length)) =
      some (true, 1) := by
  refine ⟨rfl, by decide, rfl⟩

/-- C5 amended: a grammar-matching frame is dropped by the length check
exactly when `len(PAYLOAD) // 2` (floor) differs from the declared `PAYLEN`;
dropping means no state change and no callback. -/
theorem length_check_uses_floor_div (st : RState) (now : ℚ) (line : String)
    (f : Frame) (r : List Char)
    (hm : frameMatch line.data = some (f, r))
    (hne : f.payload.length / 2 ≠ (decVal f.paylen.data).getD 0) :
    processLine st now line = some (st, []) := by
  simp only [processLine, hm]
  rw [if_pos hne]

/-- Witness for C5 on the specification's mismatch example. -/
theorem length_check_uses_floor_div_witness :
    processLine initState 0 mismatchLine = some (initState, []) :=
  length_check_uses_floor_div initState 0 mismatchLine
    { rssi := "069", verb := " I", seqf := "---", addr1 := "18:012345",
      addr2 := "--:------", addr3 := "18:012345", code := "31DA",
      paylen := "010", payload := "0011AABB" } [] (by rfl) (by decide)

/-- C7: the symbolic-command table is exactly
night/auto/low/high/timer10/timer20/timer30 with the listed code/payload
texts; an unknown name sends nothing and leaves the whole state unchanged,
a known name emits exactly the table text and increments the counter. -/
theorem command_table_exact (st : RState) (cmd body : String) :
    (command_map cmd = none → command st cmd = (st, none)) ∧
    (command_map cmd = some body →
      command st cmd =
        ({ st with sequence_number := st.sequence_number + 1 },
         some (" I " ++ ⟨pyPad 3 st.sequence_number⟩ ++
               " --:------ --:------ " ++ st.remote_address ++ " " ++ body ++
               "\r\n"))) ∧
    command_map "night" = some "22F8 003 630203" ∧
    command_map "auto" = some "22F1 003 630304" ∧
    command_map "low" = some "22F1 003 630204" ∧
    command_map "high" = some "22F1 003 630404" ∧
    command_map "timer10" = some "22F3 003 63000A" ∧
    command_map "timer20" = some "22F3 003 630014" ∧
    command_map "timer30" = some "22F3 003 63001E" ∧
    command_map "boost" = none := by
  refine ⟨?_, ?_, rfl, rfl, rfl, rfl, rfl, rfl, rfl, rfl⟩
  · intro h
    simp only [command, h]
  · intro h
    simp only [command, h]

/-- Witness for C7: the unknown command `boost` is rejected without a state
change, and `auto` sends exactly the table frame with the counter bumped. -/
theorem command_table_exact_witness :
    command initState "boost" = (initState, none) ∧
    command initState "auto" =
      ({ initState with sequence_number := 1 },
       some " I 000 --:------ --:------ 29:012345 22F1 003 630304\r\n") :=
  ⟨(command_table_exact initState "boost" "").1 rfl,
   ((command_table_exact initState "auto" "22F1 003 630304").2.1 rfl).trans
     (by decide)⟩

/-- C9: when a frame satisfying all pairing-success conditions is processed
at a time strictly past the deadline, the success callback fires first with
the frame's addr1, and then the timeout branch of the same processing step
also runs, resetting `unit_address` to `None` and leaving the machine
unpaired: the two branches are not mutually exclusive. -/
theorem pairing_success_then_timeout_same_step
    (st : RState) (now : ℚ) (line : String) (f : Frame) (r : List Char)
    (hm : frameMatch line.data = some (f, r))
    (hlen : f.payload.length / 2 = (decVal f.paylen.data).getD 0)
    (hp : st.is_pairing = true)
    (hv : f.verb = "RQ") (hc : f.code = "10E0")
    (ha : f.addr2 = st.remote_address) (hpl : f.payload = "63")
    (ht : now > st.pairing_timeout) :
    processLine st now line =
      some ({ st with unit_address := none, is_pairing := false },
            [REvent.pairCallback st.remote_address f.addr1]) := by
  simp only [processLine, hm]
  rw [if_neg (not_not_intro hlen)]
  simp only [hp, hv, hc, ha, hpl, beq_self_eq_true, Bool.and_self,
    Bool.true_and, Bool.and_true, if_true]
  rw [if_pos ht]

/-- Witness for C9 on a concrete success frame arriving one second past the
deadline. -/
theorem pairing_success_then_timeout_same_step_witness :
    processLine pairingState 11 successLine =
      some ({ pairingState with unit_address := none, is_pairing := false },
            [REvent.pairCallback pairingState.remote_address "18:126620"]) :=
  pairing_success_then_timeout_same_step pairingState 11 successLine
    { rssi := "070", verb := "RQ", seqf := "---", addr1 := "18:126620",
      addr2 := "29:012345", addr3 := "--:------", code := "10E0",
      paylen := "001", payload := "63" } [] (by rfl) (by decide) (by rfl)
    (by rfl) (by rfl) (by rfl) (by rfl) (by decide)

/-- Counterexample for C4: in a processing cycle in which no line arrives,
the timeout check never runs — the machine stays in `Pairing` even though
the time is strictly past the deadline. -/
theorem pairing_timeout_skipped_without_frames :
    processLines pairingState 11 [] = some (pairingState, []) ∧
    pairingState.is_pairing = true ∧
    pairingState.pairing_timeout < 11 := by
  refine ⟨rfl, rfl, by decide⟩

/-- C4 amended: the timeout test is evaluated only while handling a
grammar-matching, length-valid frame during pairing; whenever such a frame
is processed at a time strictly past the deadline the machine does return to
Idle with `unit_address` cleared (and no timeout callback exists in the
code, only a log warning). -/
theorem pairing_timeout_checked_only_on_matched_frame
    (st : RState) (now : ℚ) (line : String) (f : Frame) (r : List Char)
    (hm : frameMatch line.data = some (f, r))
    (hlen : f.payload.length / 2 = (decVal f.paylen.data).getD 0)
    (hp : st.is_pairing = true)
    (ht : now > st.pairing_timeout) :
    ∃ evs, processLine st now line =
      some ({ st with unit_address := none, is_pairing := false }, evs) := by
  simp only [processLine, hm]
  rw [if_neg (not_not_intro hlen)]
  simp only [hp, if_true]
  cases hb : (f.verb == "RQ" && f.code == "10E0" &&
      f.addr2 == st.remote_address && f.payload == "63") with
  | false =>
    simp only [hb, Bool.false_eq_true, if_false]
    rw [if_pos ht]
    exact ⟨[], rfl⟩
  | true =>
    simp only [hb, if_true]
    rw [if_pos ht]
    exact ⟨[REvent.pairCallback st.remote_address f.addr1], rfl⟩

/-- Witness for C4 on the broadcast echo frame processed past the
deadline. -/
theorem pairing_timeout_checked_only_on_matched_frame_witness :
    ∃ evs, processLine pairingState 11 pairEchoLine =
      some ({ pairingState with unit_address := none, is_pairing := false },
            evs) :=
  pairing_timeout_checked_only_on_matched_frame pairingState 11 pairEchoLine
    { rssi := "072", verb := " I", seqf := "022", addr1 := "--:------",
      addr2 := "--:------", addr3 := "29:012345", code := "1FC9",
      paylen := "012", payload := "6322F87430390110E0743039" } []
    (by rfl) (by decide) (by rfl) (by decide)

/-- Inversion of a successful `parse_status`: every one of the 19 `int()`
calls parsed, and the temperature fields hold `tempField` of the raw
values at their offsets. -/
lemma parse_status_some_inv (p : List Char) (d : StatusData)
    (hp : parse_status p = some d) :
    ∃ v1 v2 v3 v4 v5 v6 v7 v8 v9 v10 v11 v12 v13 v14 v15 v16 v17 v18 v19,
      hexVal (pySlice p 2 4) = some v1 ∧
      hexVal (pySlice p 4 6) = some v2 ∧
      hexVal (pySlice p 6 10) = some v3 ∧
      hexVal (pySlice p 10 12) = some v4 ∧
      hexVal (pySlice p 12 14) = some v5 ∧
      hexVal (pySlice p 14 18) = some v6 ∧
      hexVal (pySlice p 18 22) = some v7 ∧
      hexVal (pySlice p 22 26) = some v8 ∧
      hexVal (pySlice p 26 30) = some v9 ∧
      hexVal (pySlice p 30 34) = some v10 ∧
      hexVal (pySlice p 34 36) = some v11 ∧
      hexVal (pySlice p 36 38) = some v12 ∧
      hexVal (pySlice p 38 40) = some v13 ∧
      hexVal (pySlice p 40 42) = some v14 ∧
      hexVal (pySlice p 42 46) = some v15 ∧
      hexVal (pySlice p 46 48) = some v16 ∧
      hexVal (pySlice p 48 50) = some v17 ∧
      hexVal (pySlice p 50 54) = some v18 ∧
      hexVal (pySlice p 54 58) = some v19 ∧
      d.exhaust_temperature = tempField v6 ∧
      d.supply_temperature = tempField v7 ∧
      d.indoor_temperature = tempField v8 ∧
      d.outdoor_temperature = tempField v9 := by
  unfold parse_status at hp
  cases h1 : hexVal (pySlice p 2 4) with
  | none => rw [h1] at hp; exact Option.noConfusion hp
  | some v1 =>
  rw [h1] at hp
  cases h2 : hexVal (pySlice p 4 6) with
  | none => rw [h2] at hp; exact Option.noConfusion hp
  | some v2 =>
  rw [h2] at hp
  cases h3 : hexVal (pySlice p 6 10) with
  | none => rw [h3] at hp; exact Option.noConfusion hp
  | some v3 =>
  rw [h3] at hp
  cases h4 : hexVal (pySlice p 10 12) with
  | none => rw [h4] at hp; exact Option.noConfusion hp
  | some v4 =>
  rw [h4] at hp
  cases h5 : hexVal (pySlice p 12 14) with
  | none => rw [h5] at hp; exact Option.noConfusion hp
  | some v5 =>
  rw [h5] at hp
  cases h6 : hexVal (pySlice p 14 18) with
  | none => rw [h6] at hp; exact Option.noConfusion hp
  | some v6 =>
  rw [h6] at hp
  cases h7 : hexVal (pySlice p 18 22) with
  | none => rw [h7] at hp; exact Option.noConfusion hp
  | some v7 =>
  rw [h7] at hp
  cases h8 : hexVal (pySlice p 22 26) with
  | none => rw [h8] at hp; exact Option.noConfusion hp
  | some v8 =>
  rw [h8] at hp
  cases h9 : hexVal (pySlice p 26 30) with
  | none => rw [h9] at hp; exact Option.noConfusion hp
  | some v9 =>
  rw [h9] at hp
  cases h10 : hexVal (pySlice p 30 34) with
  | none => rw [h10] at hp; exact Option.noConfusion hp
  | some v10 =>
  rw [h10] at hp
  cases h11 : hexVal (pySlice p 34 36) with
  | none => rw [h11] at hp; exact Option.noConfusion hp
  | some v11 =>
  rw [h11] at hp
  cases h12 : hexVal (pySlice p 36 38) with
  | none => rw [h12] at hp; exact Option.noConfusion hp
  | some v12 =>
  rw [h12] at hp
  cases h13 : hexVal (pySlice p 38 40) with
  | none => rw [h13] at hp; exact Option.noConfusion hp
  | some v13 =>
  rw [h13] at hp
  cases h14 : hexVal (pySlice p 40 42) with
  | none => rw [h14] at hp; exact Option.noConfusion hp
  | some v14 =>
  rw [h14] at hp
  cases h15 : hexVal (pySlice p 42 46) with
  | none => rw [h15] at hp; exact Option.noConfusion hp
  | some v15 =>
  rw [h15] at hp
  cases h16 : hexVal (pySlice p 46 48) with
  | none => rw [h16] at hp; exact Option.noConfusion hp
  | some v16 =>
  rw [h16] at hp
  cases h17 : hexVal (pySlice p 48 50) with
  | none => rw [h17] at hp; exact Option.noConfusion hp
  | some v17 =>
  rw [h17] at hp
  cases h18 : hexVal (pySlice p 50 54) with
  | none => rw [h18] at hp; exact Option.noConfusion hp
  | some v18 =>
  rw [h18] at hp
  cases h19 : hexVal (pySlice p 54 58) with
  | none => rw [h19] at hp; exact Option.noConfusion hp
  | some v19 =>
  rw [h19] at hp
  obtain rfl := Option.some.inj hp
  exact ⟨v1, v2, v3, v4, v5, v6, v7, v8, v9, v10, v11, v12, v13, v14, v15, v16, v17, v18, v19, rfl, rfl, rfl, rfl, rfl, rfl, rfl, rfl, rfl, rfl, rfl, rfl, rfl, rfl, rfl, rfl, rfl, rfl, rfl, rfl, rfl, rfl, rfl⟩

/-- A character passing the `[0-9A-F]` class has a hex digit value. -/
lemma hexDigitVal_isSome {c : Char} (h : isHexU c = true) :
    (hexDigitVal c).isSome := by
  simp only [isHexU, Bool.or_eq_true] at h
  unfold hexDigitVal
  rcases h with h1 | h2
  · simp [h1]
  · by_cases hd : isDigitC c = true
    · simp [hd]
    · simp [hd, h2]

/-- The `int(_, 16)` accumulator loop succeeds on hex characters. -/
lemma hexValGo_isSome :
    ∀ cs acc, (∀ c ∈ cs, isHexU c = true) → (hexValGo cs acc).isSome
  | [], _, _ => rfl
  | c :: cs, acc, h => by
    unfold hexValGo
    have hs := hexDigitVal_isSome (h c (List.mem_cons_self c cs))
    cases hv : hexDigitVal c with
    | none => rw [hv] at hs; exact absurd hs (by simp)
    | some d =>
      exact hexValGo_isSome cs (acc * 16 + d)
        (fun x hx => h x (List.mem_cons_of_mem c hx))

/-- `int(s, 16)` succeeds exactly on nonempty hex strings. -/
lemma hexVal_isSome {cs : List Char} (hne : cs ≠ [])
    (h : ∀ c ∈ cs, isHexU c = true) : ∃ v, hexVal cs = some v := by
  cases cs with
  | nil => exact absurd rfl hne
  | cons c cs =>
    have hg := hexValGo_isSome (c :: cs) 0 h
    exact Option.isSome_iff_exists.mp hg

/-- Any parsed hex digit value is below 16. -/
lemma hexDigitVal_lt {c : Char} {d : Nat} (h : hexDigitVal c = some d) :
    d < 16 := by
  unfold hexDigitVal at h
  by_cases h1 : isDigitC c = true
  · rw [if_pos h1] at h
    obtain rfl := Option.some.inj h
    simp only [isDigitC, Bool.and_eq_true, decide_eq_true_eq] at h1
    obtain ⟨g1, g2⟩ := h1
    have gb : c.toNat ≤ ('9' : Char).toNat := g2
    have h9 : ('9' : Char).toNat = 57 := rfl
    omega
  · rw [if_neg h1] at h
    by_cases h2 : ('A' ≤ c && c ≤ 'F') = true
    · rw [if_pos h2] at h
      obtain rfl := Option.some.inj h
      simp only [Bool.and_eq_true, decide_eq_true_eq] at h2
      obtain ⟨g1, g2⟩ := h2
      have ga : ('A' : Char).toNat ≤ c.toNat := g1
      have gb : c.toNat ≤ ('F' : Char).toNat := g2
      have hA : ('A' : Char).toNat = 65 := rfl
      have hF : ('F' : Char).toNat = 70 := rfl
      omega
    · rw [if_neg h2] at h
      by_cases h3 : ('a' ≤ c && c ≤ 'f') = true
      · rw [if_pos h3] at h
        obtain rfl := Option.some.inj h
        simp only [Bool.and_eq_true, decide_eq_true_eq] at h3
        obtain ⟨g1, g2⟩ := h3
        have ga : ('a' : Char).toNat ≤ c.toNat := g1
        have gb : c.toNat ≤ ('f' : Char).toNat := g2
        have ha : ('a' : Char).toNat = 97 := rfl
        have hf : ('f' : Char).toNat = 102 := rfl
        omega
      · rw [if_neg h3] at h
        exact Option.noConfusion h

/-- Accumulator bound for the `int(_, 16)` loop. -/
lemma hexValGo_lt :
    ∀ cs acc v, hexValGo cs acc = some v → v < (acc + 1) * 16 ^ cs.length
  | [], acc, v, h => by
    obtain rfl := Option.some.inj h
    simp
  | c :: cs, acc, v, h => by
    unfold hexValGo at h
    cases hv : hexDigitVal c with
    | none => rw [hv] at h; exact Option.noConfusion h
    | some d =>
      rw [hv] at h
      have hd := hexDigitVal_lt hv
      have ih := hexValGo_lt cs (acc * 16 + d) v h
      have hle : acc * 16 + d + 1 ≤ (acc + 1) * 16 := by omega
      calc v < (acc * 16 + d + 1) * 16 ^ cs.length := ih
        _ ≤ (acc + 1) * 16 * 16 ^ cs.length := Nat.mul_le_mul_right _ hle
        _ = (acc + 1) * 16 ^ (c :: cs).length := by
              rw [List.length_cons]; ring

/-- A parsed hex value is bounded by 16 to the number of characters. -/
lemma hexVal_lt {cs : List Char} {v : Nat} (h : hexVal cs = some v) :
    v < 16 ^ cs.length := by
  cases cs with
  | nil => exact Option.noConfusion h
  | cons c cs =>
    have hb := hexValGo_lt (c :: cs) 0 v h
    simpa using hb

/-- Characters of a Python slice come from the sliced string. -/
lemma pySlice_subset (p : List Char) (i j : Nat) :
    ∀ c ∈ pySlice p i j, c ∈ p := by
  intro c hc
  exact List.drop_subset i p (List.take_subset (j - i) (p.drop i) hc)

/-- A slice `[i:j)` with `i < j` starting inside the string is nonempty. -/
lemma pySlice_ne_nil {p : List Char} {i j : Nat} (hij : i < j)
    (hip : i < p.length) : pySlice p i j ≠ [] := by
  apply List.ne_nil_of_length_pos
  simp only [pySlice, List.length_take, List.length_drop]
  omega

/-- A slice starting at or past the end of the string is empty. -/
lemma pySlice_nil_of_le {p : List Char} {i j : Nat} (h : p.length ≤ i) :
    pySlice p i j = [] := by
  apply List.length_eq_zero.mp
  simp only [pySlice, List.length_take, List.length_drop]
  omega

/-- A slice `[i:j)` has at most `j - i` characters. -/
lemma pySlice_len_le (p : List Char) (i j : Nat) :
    (pySlice p i j).length ≤ j - i := by
  simp only [pySlice, List.length_take, List.length_drop]
  omega

/-- Counterexample for C2: the status decoder is claimed to reject every
input whose length is not exactly 58 with `InvalidLength`.  The code has no
length check at all: this 60-character hex payload decodes to a full
StatusReport, its two extra characters silently ignored. -/
theorem status_decode_ignores_extra_length :
    (parse_status longPayload.data).isSome = true ∧
    longPayload.length = 60 ∧ (60 : Nat) ≠ 58 := by
  refine ⟨rfl, rfl, by decide⟩

/-- C2 amended: `_parse_status` performs no length validation; for a hex
payload, the decode succeeds exactly when the payload reaches the last fixed
slice `[54:58)`, i.e. has at least 55 characters (characters past position
58 are ignored).  Shorter payloads fail with an uncaught `ValueError` from
`int('', 16)`, not with a structured `InvalidLength`. -/
theorem status_decode_accepts_iff_55_chars (p : List Char)
    (hhex : ∀ c ∈ p, isHexU c = true) :
    (parse_status p).isSome ↔ 55 ≤ p.length := by
  constructor
  · intro hs
    obtain ⟨d, hd⟩ := Option.isSome_iff_exists.mp hs
    obtain ⟨v1, v2, v3, v4, v5, v6, v7, v8, v9, v10, v11, v12, v13, v14, v15,
      v16, v17, v18, v19, e1, e2, e3, e4, e5, e6, e7, e8, e9, e10, e11, e12,
      e13, e14, e15, e16, e17, e18, e19, _, _, _, _⟩ :=
      parse_status_some_inv p d hd
    by_contra hlen
    have h54 : pySlice p 54 58 = [] := pySlice_nil_of_le (by omega)
    rw [h54] at e19
    exact Option.noConfusion e19
  · intro hlen
    have mk : ∀ i j : Nat, i < j → i < 55 → ∃ v, hexVal (pySlice p i j) = some v := by
      intro i j hij hi
      exact hexVal_isSome (pySlice_ne_nil hij (by omega))
        (fun c hc => hhex c (pySlice_subset p i j c hc))
    obtain ⟨v1, e1⟩ := mk 2 4 (by omega) (by omega)
    obtain ⟨v2, e2⟩ := mk 4 6 (by omega) (by omega)
    obtain ⟨v3, e3⟩ := mk 6 10 (by omega) (by omega)
    obtain ⟨v4, e4⟩ := mk 10 12 (by omega) (by omega)
    obtain ⟨v5, e5⟩ := mk 12 14 (by omega) (by omega)
    obtain ⟨v6, e6⟩ := mk 14 18 (by omega) (by omega)
    obtain ⟨v7, e7⟩ := mk 18 22 (by omega) (by omega)
    obtain ⟨v8, e8⟩ := mk 22 26 (by omega) (by omega)
    obtain ⟨v9, e9⟩ := mk 26 30 (by omega) (by omega)
    obtain ⟨v10, e10⟩ := mk 30 34 (by omega) (by omega)
    obtain ⟨v11, e11⟩ := mk 34 36 (by omega) (by omega)
    obtain ⟨v12, e12⟩ := mk 36 38 (by omega) (by omega)
    obtain ⟨v13, e13⟩ := mk 38 40 (by omega) (by omega)
    obtain ⟨v14, e14⟩ := mk 40 42 (by omega) (by omega)
    obtain ⟨v15, e15⟩ := mk 42 46 (by omega) (by omega)
    obtain ⟨v16, e16⟩ := mk 46 48 (by omega) (by omega)
    obtain ⟨v17, e17⟩ := mk 48 50 (by omega) (by omega)
    obtain ⟨v18, e18⟩ := mk 50 54 (by omega) (by omega)
    obtain ⟨v19, e19⟩ := mk 54 58 (by omega) (by omega)
    simp only [parse_status, e1, e2, e3, e4, e5, e6, e7, e8, e9, e10, e11,
      e12, e13, e14, e15, e16, e17, e18, e19, Option.isSome_some]

/-- Witness for C2 on the 58-character sample payload. -/
theorem status_decode_accepts_iff_55_chars_witness :
    (parse_status stdPayload.data).isSome ↔ 55 ≤ stdPayload.data.length :=
  status_decode_accepts_iff_55_chars stdPayload.data (by decide)

/-- For 16-bit values the code's sign test `raw & 0x8000` agrees with the
arithmetic test `0x8000 <= raw`. -/
lemma and_0x8000_ne_iff {r : Nat} (hr : r < 65536) :
    (r &&& 0x8000 ≠ 0) ↔ 0x8000 ≤ r := by
  have heq : r &&& 32768 = (r.testBit 15).toNat * 32768 := by
    have h := Nat.and_two_pow r 15
    norm_num at h
    exact h
  have ht : r.testBit 15 = decide (r / 32768 % 2 = 1) := by
    have h : r.testBit 15 = decide (r / 2 ^ 15 % 2 = 1) := Nat.testBit_to_div_mod
    have e : (2 : Nat) ^ 15 = 32768 := by norm_num
    rw [e] at h
    exact h
  show (r &&& 32768 ≠ 0) ↔ 32768 ≤ r
  rw [heq]
  cases hb : r.testBit 15 with
  | false =>
    rw [hb] at ht
    have hdiv := of_decide_eq_false ht.symm
    simp only [Bool.toNat_false, Nat.zero_mul, ne_eq]
    constructor
    · intro h
      exact absurd trivial h
    · intro h
      exact absurd (show r / 32768 % 2 = 1 by omega) hdiv
  | true =>
    rw [hb] at ht
    have hdiv := of_decide_eq_true ht.symm
    simp only [Bool.toNat_true, Nat.one_mul, ne_eq]
    constructor
    · intro _
      omega
    · intro _
      norm_num

/-- On 16-bit raw values the code's temperature decode is the
specification's two's-complement decode. -/
lemma tempField_eq_specTemp {r : Nat} (hr : r < 65536) :
    tempField r = specTemp r := by
  unfold tempField specTemp
  by_cases hb : (0x8000 : Nat) ≤ r
  · rw [if_pos ((and_0x8000_ne_iff hr).mpr hb), if_pos hb]
  · have hne : ¬(r &&& 0x8000 ≠ 0) := fun h => hb ((and_0x8000_ne_iff hr).mp h)
    rw [if_neg hne, if_neg hb]
    simp only [sub_zero]

/-- C6: every 16-bit big-endian raw temperature is decoded as
two's-complement over 100, kept only inside -273.15..327.66, identically for
the four temperature fields; raw 0x8000 gives null, raw 0 gives 0.0. -/
theorem temperature_decode_twos_complement
    (p : List Char) (d : StatusData) (r1 r2 r3 r4 : Nat)
    (hp : parse_status p = some d)
    (h1 : hexVal (pySlice p 14 18) = some r1)
    (h2 : hexVal (pySlice p 18 22) = some r2)
    (h3 : hexVal (pySlice p 22 26) = some r3)
    (h4 : hexVal (pySlice p 26 30) = some r4) :
    d.exhaust_temperature = specTemp r1 ∧
    d.supply_temperature = specTemp r2 ∧
    d.indoor_temperature = specTemp r3 ∧
    d.outdoor_temperature = specTemp r4 ∧
    specTemp 0x8000 = none ∧ specTemp 0 = some 0 := by
  obtain ⟨v1, v2, v3, v4, v5, v6, v7, v8, v9, v10, v11, v12, v13, v14, v15,
    v16, v17, v18, v19, e1, e2, e3, e4, e5, e6, e7, e8, e9, e10, e11, e12,
    e13, e14, e15, e16, e17, e18, e19, t1, t2, t3, t4⟩ :=
    parse_status_some_inv p d hp
  have bound : ∀ i j r' : Nat, j = i + 4 → hexVal (pySlice p i j) = some r' →
      r' < 65536 := by
    intro i j r' hji he
    have hlt := hexVal_lt he
    have hlen : (pySlice p i j).length ≤ 4 := by
      have := pySlice_len_le p i j
      omega
    calc r' < 16 ^ (pySlice p i j).length := hlt
      _ ≤ 16 ^ 4 := Nat.pow_le_pow_right (by norm_num) hlen
      _ = 65536 := by norm_num
  obtain rfl : v6 = r1 := by rw [e6] at h1; exact Option.some.inj h1
  obtain rfl : v7 = r2 := by rw [e7] at h2; exact Option.some.inj h2
  obtain rfl : v8 = r3 := by rw [e8] at h3; exact Option.some.inj h3
  obtain rfl : v9 = r4 := by rw [e9] at h4; exact Option.some.inj h4
  refine ⟨?_, ?_, ?_, ?_, ?_, ?_⟩
  · rw [t1, tempField_eq_specTemp (bound 14 18 v6 rfl e6)]
  · rw [t2, tempField_eq_specTemp (bound 18 22 v7 rfl e7)]
  · rw [t3, tempField_eq_specTemp (bound 22 26 v8 rfl e8)]
  · rw [t4, tempField_eq_specTemp (bound 26 30 v9 rfl e9)]
  · norm_num [specTemp]
  · norm_num [specTemp]

/-- Witness for C6 on the sample payload: raw temperatures 0x0884, 0x079E,
0x085A, 0x0771. -/
theorem temperature_decode_twos_complement_witness :
    ((parse_status stdPayload.data).getD emptyStatus).exhaust_temperature =
      specTemp 0x0884 ∧
    ((parse_status stdPayload.data).getD emptyStatus).supply_temperature =
      specTemp 0x079E ∧
    ((parse_status stdPayload.data).getD emptyStatus).indoor_temperature =
      specTemp 0x085A ∧
    ((parse_status stdPayload.data).getD emptyStatus).outdoor_temperature =
      specTemp 0x0771 ∧
    specTemp 0x8000 = none ∧ specTemp 0 = some 0 :=
  temperature_decode_twos_complement stdPayload.data
    ((parse_status stdPayload.data).getD emptyStatus)
    0x0884 0x079E 0x085A 0x0771 (by rfl) (by rfl) (by rfl) (by rfl) (by rfl)

/-- Every decimal digit character renders and re-parses to itself. -/
lemma decDigitChar_spec {d : Nat} (hd : d < 10) :
    isDigitC (decDigitChar d) = true ∧ (decDigitChar d).toNat - 48 = d := by
  interval_cases d <;> exact ⟨rfl, rfl⟩

/-- The fuel argument of `decDigitsF` is irrelevant once it dominates the
value. -/
lemma decDigitsF_fuel :
    ∀ f1 f2 n, n ≤ f1 → n ≤ f2 → decDigitsF f1 n = decDigitsF f2 n
  | 0, f2, n, h1, _ => by
    have hn : n = 0 := by omega
    subst hn
    cases f2 with
    | zero => rfl
    | succ f2 => simp [decDigitsF]
  | f1 + 1, 0, n, _, h2 => by
    have hn : n = 0 := by omega
    subst hn
    simp [decDigitsF]
  | f1 + 1, f2 + 1, n, h1, h2 => by
    by_cases hn : n < 10
    · simp [decDigitsF, hn]
    · simp only [decDigitsF, if_neg hn]
      rw [decDigitsF_fuel f1 f2 (n / 10) (by omega) (by omega)]

/-- `decDigits` on a single-digit number. -/
lemma decDigits_small {n : Nat} (h : n < 10) :
    decDigits n = [decDigitChar n] := by
  unfold decDigits
  cases n with
  | zero => rfl
  | succ m => simp [decDigitsF, h]

/-- The recurrence of `decDigits` on numbers of two or more digits. -/
lemma decDigits_rec {n : Nat} (h : 10 ≤ n) :
    decDigits n = decDigits (n / 10) ++ [decDigitChar (n % 10)] := by
  obtain ⟨m, rfl⟩ : ∃ m, n = m + 1 := ⟨n - 1, by omega⟩
  unfold decDigits
  simp only [decDigitsF]
  rw [if_neg (show ¬ m + 1 < 10 by omega)]
  rw [decDigitsF_fuel m ((m + 1) / 10) ((m + 1) / 10) (by omega) (by omega)]

/-- Appending to a successfully parsed digit prefix continues the
accumulator. -/
lemma decValGo_append :
    ∀ xs ys acc m, decValGo xs acc = some m →
      decValGo (xs ++ ys) acc = decValGo ys m
  | [], _, acc, m, h => by
    obtain rfl := Option.some.inj h
    rfl
  | x :: xs, ys, acc, m, h => by
    simp only [decValGo] at h ⊢
    by_cases hd : isDigitC x = true
    · rw [if_pos hd] at h ⊢
      exact decValGo_append xs ys _ m h
    · rw [if_neg hd] at h
      exact Option.noConfusion h

/-- Leading zeros keep the accumulator at zero. -/
lemma decValGo_replicate_zero :
    ∀ k, decValGo (List.replicate k '0') 0 = some 0
  | 0 => rfl
  | k + 1 => by
    show decValGo ('0' :: List.replicate k '0') 0 = some 0
    unfold decValGo
    rw [if_pos (by decide)]
    exact decValGo_replicate_zero k

/-- Parsing the rendered digits of `n` starting from accumulator `acc`. -/
lemma decValGo_decDigits (n : Nat) :
    ∀ acc, decValGo (decDigits n) acc =
      some (acc * 10 ^ (decDigits n).length + n) := by
  induction n using Nat.strong_induction_on with
  | _ n ih =>
    intro acc
    by_cases hn : n < 10
    · rw [decDigits_small hn]
      obtain ⟨hd, hv⟩ := decDigitChar_spec hn
      unfold decValGo
      rw [if_pos hd]
      unfold decValGo
      rw [hv]
      norm_num
    · rw [decDigits_rec (by omega)]
      have ihq := ih (n / 10) (by omega) acc
      rw [decValGo_append (decDigits (n / 10)) _ acc _ ihq]
      obtain ⟨hd, hv⟩ := decDigitChar_spec (show n % 10 < 10 by omega)
      unfold decValGo
      rw [if_pos hd]
      unfold decValGo
      rw [hv]
      rw [List.length_append, List.length_cons, List.length_nil]
      have hpow : (10 : Nat) ^ ((decDigits (n / 10)).length + (0 + 1)) =
          10 ^ (decDigits (n / 10)).length * 10 := by
        rw [pow_succ]
      rw [hpow]
      congr 1
      have : 10 * (n / 10) + n % 10 = n := Nat.div_add_mod n 10
      ring_nf
      omega

/-- The rendered digits of `n` are never empty. -/
lemma decDigits_ne_nil (n : Nat) : decDigits n ≠ [] := by
  by_cases hn : n < 10
  · rw [decDigits_small hn]
    exact List.cons_ne_nil _ _
  · rw [decDigits_rec (by omega)]
    simp

/-- Every rendered character is a decimal digit. -/
lemma decDigits_all_digits (n : Nat) :
    ∀ c ∈ decDigits n, isDigitC c = true := by
  induction n using Nat.strong_induction_on with
  | _ n ih =>
    intro c hc
    by_cases hn : n < 10
    · rw [decDigits_small hn] at hc
      obtain rfl := List.mem_singleton.mp hc
      exact (decDigitChar_spec hn).1
    · rw [decDigits_rec (by omega)] at hc
      rcases List.mem_append.mp hc with h | h
      · exact ih (n / 10) (by omega) c h
      · obtain rfl := List.mem_singleton.mp h
        exact (decDigitChar_spec (show n % 10 < 10 by omega)).1

/-- `int()` of a Python zero-padded rendering recovers the value. -/
lemma decVal_pyPad (w n : Nat) : decVal (pyPad w n) = some n := by
  have hne : pyPad w n ≠ [] := by
    unfold pyPad
    intro hcon
    exact decDigits_ne_nil n (List.append_eq_nil.mp hcon).2
  have hgo : decValGo (pyPad w n) 0 = some n := by
    unfold pyPad
    rw [decValGo_append _ _ 0 0 (decValGo_replicate_zero _)]
    rw [decValGo_decDigits n 0]
    norm_num
  have heq : decVal (pyPad w n) = decValGo (pyPad w n) 0 := by
    cases hp : pyPad w n with
    | nil => exact absurd hp hne
    | cons c cs => rfl
  rw [heq]
  exact hgo

/-- Every character of a zero-padded rendering is a decimal digit. -/
lemma pyPad_all_digits (w n : Nat) :
    ∀ c ∈ pyPad w n, isDigitC c = true := by
  intro c hc
  rcases List.mem_append.mp hc with h | h
  · obtain rfl := List.eq_of_mem_replicate h
    rfl
  · exact decDigits_all_digits n c h

/-- Decimal digit characters are never the colon. -/
lemma ne_colon_of_digit {c : Char} (h : isDigitC c = true) : c ≠ ':' := by
  intro hcon
  rw [hcon] at h
  exact absurd h (by decide)

/-- `split(":")` of a colon-free string is the singleton list. -/
lemma splitColon_no_colon :
    ∀ ys : List Char, (∀ c ∈ ys, c ≠ ':') → splitColon ys = [ys]
  | [], _ => rfl
  | c :: cs, h => by
    simp only [splitColon]
    rw [if_neg (h c (List.mem_cons_self c cs))]
    rw [splitColon_no_colon cs (fun x hx => h x (List.mem_cons_of_mem c hx))]

/-- `split(":")` of `xs ++ ":" ++ ys` with colon-free `xs` peels `xs`. -/
lemma splitColon_append :
    ∀ xs ys : List Char, (∀ c ∈ xs, c ≠ ':') →
      splitColon (xs ++ ':' :: ys) = xs :: splitColon ys
  | [], ys, _ => by
    simp only [List.nil_append, splitColon]
    simp
  | x :: xs, ys, h => by
    simp only [List.cons_append, splitColon, List.append_eq]
    rw [if_neg (h x (List.mem_cons_self x xs))]
    rw [splitColon_append xs ys (fun c hc => h c (List.mem_cons_of_mem x hc))]

/-- Shifts distribute over bitwise and. -/
lemma shiftRight_land_distrib (a b k : Nat) :
    (a &&& b) >>> k = (a >>> k) &&& (b >>> k) := by
  apply Nat.eq_of_testBit_eq
  intro j
  simp [Nat.testBit_shiftRight, Nat.testBit_land]

/-- The class field extracted back out of a packed address integer. -/
lemma addr_mask_high {c i : Nat} (hc : c ≤ 63) (hi : i ≤ 0x3FFFF) :
    (((c <<< 18) + i) &&& 0xFC0000) >>> 18 = c := by
  rw [shiftRight_land_distrib]
  have h1 : (0xFC0000 : Nat) >>> 18 = 63 := by decide
  rw [h1]
  have h2 : ((c <<< 18) + i) >>> 18 = c := by
    rw [Nat.shiftRight_eq_div_pow, Nat.shiftLeft_eq]
    have : (2 : Nat) ^ 18 = 262144 := by norm_num
    rw [this]
    omega
  rw [h2]
  have h3 : c &&& 63 = c % 64 := by
    have := Nat.and_pow_two_sub_one_eq_mod c 6
    norm_num at this
    exact this
  rw [h3]
  omega

/-- The id field extracted back out of a packed address integer. -/
lemma addr_mask_low {c i : Nat} (hi : i ≤ 0x3FFFF) :
    ((c <<< 18) + i) &&& 0x3FFFF = i := by
  have h1 : ((c <<< 18) + i) &&& 0x3FFFF = ((c <<< 18) + i) % 262144 := by
    have := Nat.and_pow_two_sub_one_eq_mod ((c <<< 18) + i) 18
    norm_num at this
    exact this
  rw [h1, Nat.shiftLeft_eq]
  have : (2 : Nat) ^ 18 = 262144 := by norm_num
  rw [this]
  omega

/-- Adding a value below `2^n` into a number shifted left by `n` is the same
as bitwise or. -/
lemma mulPow_add_eq_lor :
    ∀ (n a b : Nat), b < 2 ^ n → a * 2 ^ n + b = (a * 2 ^ n) ||| b := by
  intro n
  induction n with
  | zero =>
    intro a b hb
    interval_cases b
    simp
  | succ n ih =>
    intro a b hb
    have h2 : Nat.div2 b < 2 ^ n := by
      have he : 2 ^ (n + 1) = 2 * 2 ^ n := by ring
      rw [Nat.div2_val]
      omega
    have hbit : Nat.bit (Nat.bodd b) (Nat.div2 b) = b := Nat.bit_decomp b
    have hl : a * 2 ^ (n + 1) + b =
        Nat.bit (Nat.bodd b) (a * 2 ^ n + Nat.div2 b) := by
      rw [Nat.bit_add, hbit]
      have hf : Nat.bit false (a * 2 ^ n) = 2 * (a * 2 ^ n) := by
        rw [Nat.bit_false]
      rw [hf]
      ring
    have hr : a * 2 ^ (n + 1) ||| b =
        Nat.bit (Nat.bodd b) ((a * 2 ^ n) ||| Nat.div2 b) := by
      conv_lhs =>
        rw [show a * 2 ^ (n + 1) = Nat.bit false (a * 2 ^ n) by
          rw [Nat.bit_false]; ring]
      conv_lhs => rw [← hbit]
      rw [Nat.lor_bit]
      simp
    rw [hl, hr, ih a (Nat.div2 b) h2]

/-- C8: the textual and integer address forms are mutually inverse under
`integer = (class << 18) | id` (the code adds, which on these ranges equals
the bitwise or): parsing `29:012345` gives 0x743039, formatting 0x743039
gives `29:012345`, and for every class in 0..63 and id in 0..0x3FFFF the
canonical text survives the round trip through the integer form. -/
theorem address_roundtrip (c i : Nat) (hc : c ≤ 63) (hi : i ≤ 0x3FFFF) :
    textToAddr "29:012345" = some 0x743039 ∧
    addrToText 0x743039 = "29:012345" ∧
    textToAddr ⟨pyPad 2 c ++ ':' :: pyPad 6 i⟩ = some ((c <<< 18) + i) ∧
    addrToText ((c <<< 18) + i) = ⟨pyPad 2 c ++ ':' :: pyPad 6 i⟩ ∧
    (c <<< 18) + i = (c <<< 18) ||| i := by
  refine ⟨rfl, rfl, ?_, ?_, ?_⟩
  · have hcls : ∀ x ∈ pyPad 2 c, x ≠ ':' :=
      fun x hx => ne_colon_of_digit (pyPad_all_digits 2 c x hx)
    have hid : ∀ x ∈ pyPad 6 i, x ≠ ':' :=
      fun x hx => ne_colon_of_digit (pyPad_all_digits 6 i x hx)
    have hsplit : splitColon (pyPad 2 c ++ ':' :: pyPad 6 i) =
        [pyPad 2 c, pyPad 6 i] := by
      rw [splitColon_append _ _ hcls, splitColon_no_colon _ hid]
    show textToAddr ⟨pyPad 2 c ++ ':' :: pyPad 6 i⟩ = some ((c <<< 18) + i)
    simp only [textToAddr, hsplit, decVal_pyPad]
    rfl
  · unfold addrToText
    rw [addr_mask_high hc hi, addr_mask_low hi]
  · rw [Nat.shiftLeft_eq]
    exact mulPow_add_eq_lor 18 c i (by norm_num; omega)

/-- Witness for C8 at class 29, id 12345. -/
theorem address_roundtrip_witness :
    textToAddr "29:012345" = some 0x743039 ∧
    addrToText 0x743039 = "29:012345" ∧
    textToAddr ⟨pyPad 2 29 ++ ':' :: pyPad 6 12345⟩ =
      some ((29 <<< 18) + 12345) ∧
    addrToText ((29 <<< 18) + 12345) = ⟨pyPad 2 29 ++ ':' :: pyPad 6 12345⟩ ∧
    (29 <<< 18) + 12345 = (29 <<< 18) ||| 12345 :=
  address_roundtrip 29 12345 (by decide) (by decide)

/-- A fixed-width token read is unaffected by appending to the input. -/
lemma readTok_append {n : Nat} {ok : List Char → Bool} {cs t r : List Char}
    (ys : List Char) (h : readTok n ok cs = some (t, r)) :
    readTok n ok (cs ++ ys) = some (t, r ++ ys) := by
  simp only [readTok] at h ⊢
  split at h
  · rename_i hcond
    obtain ⟨ht, hr⟩ := Prod.mk.inj (Option.some.inj h)
    have hlen : n ≤ cs.length := by
      have := hcond.1
      rw [List.length_take] at this
      omega
    have htake : (cs ++ ys).take n = cs.take n := by
      rw [List.take_append_eq_append_take]
      have : n - cs.length = 0 := by omega
      rw [this]
      simp
    have hdrop : (cs ++ ys).drop n = cs.drop n ++ ys := by
      rw [List.drop_append_eq_append_drop]
      have : n - cs.length = 0 := by omega
      rw [this]
      simp
    rw [htake, hdrop, if_pos hcond, ht, hr]
  · exact Option.noConfusion h

/-- `takeWhile` runs through an all-true prefix. -/
lemma takeWhile_append_all {p : Char → Bool} :
    ∀ xs ys : List Char, (∀ c ∈ xs, p c = true) →
      (xs ++ ys).takeWhile p = xs ++ ys.takeWhile p
  | [], _, _ => rfl
  | x :: xs, ys, h => by
    simp only [List.cons_append, List.takeWhile_cons,
      h x (List.mem_cons_self x xs), if_true]
    rw [takeWhile_append_all xs ys (fun c hc => h c (List.mem_cons_of_mem x hc))]

/-- `dropWhile` skips an all-true prefix. -/
lemma dropWhile_append_all {p : Char → Bool} :
    ∀ xs ys : List Char, (∀ c ∈ xs, p c = true) →
      (xs ++ ys).dropWhile p = ys.dropWhile p
  | [], _, _ => rfl
  | x :: xs, ys, h => by
    simp only [List.cons_append, List.dropWhile_cons,
      h x (List.mem_cons_self x xs), if_true]
    exact dropWhile_append_all xs ys (fun c hc => h c (List.mem_cons_of_mem x hc))

/-- `takeWhile` of an all-true list is the list itself. -/
lemma takeWhile_all {p : Char → Bool} :
    ∀ xs : List Char, (∀ c ∈ xs, p c = true) → xs.takeWhile p = xs
  | [], _ => rfl
  | x :: xs, h => by
    simp only [List.takeWhile_cons, h x (List.mem_cons_self x xs), if_true]
    rw [takeWhile_all xs (fun c hc => h c (List.mem_cons_of_mem x hc))]

/-- `takeWhile` stops immediately on a failing head. -/
lemma takeWhile_nil_of_head {p : Char → Bool} {ys : List Char}
    (h : ∀ c, ys.head? = some c → p c = false) : ys.takeWhile p = [] := by
  cases ys with
  | nil => rfl
  | cons y ys =>
    rw [List.takeWhile_cons, h y rfl]
    simp

/-- `dropWhile` keeps everything when the head already fails. -/
lemma dropWhile_id_of_head {p : Char → Bool} {ys : List Char}
    (h : ∀ c, ys.head? = some c → p c = false) : ys.dropWhile p = ys := by
  cases ys with
  | nil => rfl
  | cons y ys =>
    rw [List.dropWhile_cons, h y rfl]
    simp

/-- C10: the frame grammar is matched as a prefix of the line.  A line
that begins with a full grammar match decodes to the same frame, and
trailing characters after the (greedy) hex payload are returned as the
unconsumed remainder, never causing a match failure. -/
theorem frame_grammar_prefix_match (xs ys : List Char) (f : Frame)
    (hm : frameMatch xs = some (f, []))
    (hy : ∀ c, ys.head? = some c → isHexU c = false) :
    frameMatch (xs ++ ys) = some (f, ys) := by
  unfold frameMatch at hm ⊢
  cases e1 : readTok 3 (List.all · isDigitC) xs with
  | none => rw [e1] at hm; exact Option.noConfusion hm
  | some p1 =>
  obtain ⟨t1, r1⟩ := p1
  simp only [e1] at hm
  simp only [readTok_append ys e1]
  cases e2 : readTok 1 spaceOK r1 with
  | none => rw [e2] at hm; exact Option.noConfusion hm
  | some p2 =>
  obtain ⟨t2, r2⟩ := p2
  simp only [e2] at hm
  simp only [readTok_append ys e2]
  cases e3 : readTok 2 verbOK r2 with
  | none => rw [e3] at hm; exact Option.noConfusion hm
  | some p3 =>
  obtain ⟨t3, r3⟩ := p3
  simp only [e3] at hm
  simp only [readTok_append ys e3]
  cases e4 : readTok 1 spaceOK r3 with
  | none => rw [e4] at hm; exact Option.noConfusion hm
  | some p4 =>
  obtain ⟨t4, r4⟩ := p4
  simp only [e4] at hm
  simp only [readTok_append ys e4]
  cases e5 : readTok 3 seqOK r4 with
  | none => rw [e5] at hm; exact Option.noConfusion hm
  | some p5 =>
  obtain ⟨t5, r5⟩ := p5
  simp only [e5] at hm
  simp only [readTok_append ys e5]
  cases e6 : readTok 1 spaceOK r5 with
  | none => rw [e6] at hm; exact Option.noConfusion hm
  | some p6 =>
  obtain ⟨t6, r6⟩ := p6
  simp only [e6] at hm
  simp only [readTok_append ys e6]
  cases e7 : readTok 9 addrOK r6 with
  | none => rw [e7] at hm; exact Option.noConfusion hm
  | some p7 =>
  obtain ⟨t7, r7⟩ := p7
  simp only [e7] at hm
  simp only [readTok_append ys e7]
  cases e8 : readTok 1 spaceOK r7 with
  | none => rw [e8] at hm; exact Option.noConfusion hm
  | some p8 =>
  obtain ⟨t8, r8⟩ := p8
  simp only [e8] at hm
  simp only [readTok_append ys e8]
  cases e9 : readTok 9 addrOK r8 with
  | none => rw [e9] at hm; exact Option.noConfusion hm
  | some p9 =>
  obtain ⟨t9, r9⟩ := p9
  simp only [e9] at hm
  simp only [readTok_append ys e9]
  cases e10 : readTok 1 spaceOK r9 with
  | none => rw [e10] at hm; exact Option.noConfusion hm
  | some p10 =>
  obtain ⟨t10, r10⟩ := p10
  simp only [e10] at hm
  simp only [readTok_append ys e10]
  cases e11 : readTok 9 addrOK r10 with
  | none => rw [e11] at hm; exact Option.noConfusion hm
  | some p11 =>
  obtain ⟨t11, r11⟩ := p11
  simp only [e11] at hm
  simp only [readTok_append ys e11]
  cases e12 : readTok 1 spaceOK r11 with
  | none => rw [e12] at hm; exact Option.noConfusion hm
  | some p12 =>
  obtain ⟨t12, r12⟩ := p12
  simp only [e12] at hm
  simp only [readTok_append ys e12]
  cases e13 : readTok 4 (List.all · isHexU) r12 with
  | none => rw [e13] at hm; exact Option.noConfusion hm
  | some p13 =>
  obtain ⟨t13, r13⟩ := p13
  simp only [e13] at hm
  simp only [readTok_append ys e13]
  cases e14 : readTok 1 spaceOK r13 with
  | none => rw [e14] at hm; exact Option.noConfusion hm
  | some p14 =>
  obtain ⟨t14, r14⟩ := p14
  simp only [e14] at hm
  simp only [readTok_append ys e14]
  cases e15 : readTok 3 (List.all · isDigitC) r14 with
  | none => rw [e15] at hm; exact Option.noConfusion hm
  | some p15 =>
  obtain ⟨t15, r15⟩ := p15
  simp only [e15] at hm
  simp only [readTok_append ys e15]
  cases e16 : readTok 1 spaceOK r15 with
  | none => rw [e16] at hm; exact Option.noConfusion hm
  | some p16 =>
  obtain ⟨t16, r16⟩ := p16
  simp only [e16] at hm
  simp only [readTok_append ys e16]
  obtain ⟨hrec, hdrop⟩ := Prod.mk.inj (Option.some.inj hm)
  have hall : ∀ c ∈ r16, isHexU c = true :=
    List.dropWhile_eq_nil_iff.mp hdrop
  rw [takeWhile_append_all r16 ys hall, dropWhile_append_all r16 ys hall]
  rw [takeWhile_nil_of_head hy, dropWhile_id_of_head hy]
  rw [List.append_nil]
  rw [← hrec]
  rw [takeWhile_all r16 hall]

/-- Witness for C10: the broadcast echo line with ` junk` appended decodes
to the same frame with the trailing text returned unconsumed. -/
theorem frame_grammar_prefix_match_witness :
    frameMatch (pairEchoLine.data ++ " junk".data) =
      some ({ rssi := "072", verb := " I", seqf := "022",
              addr1 := "--:------", addr2 := "--:------",
              addr3 := "29:012345", code := "1FC9", paylen := "012",
              payload := "6322F87430390110E0743039" }, " junk".data) :=
  frame_grammar_prefix_match pairEchoLine.data " junk".data
    { rssi := "072", verb := " I", seqf := "022", addr1 := "--:------",
      addr2 := "--:------", addr3 := "29:012345", code := "1FC9",
      paylen := "012", payload := "6322F87430390110E0743039" }
    (by rfl)
    (fun c hc => by
      rw [show (" junk".data).head? = some ' ' from rfl] at hc
      injection hc with h
      rw [← h]
      decide)
